import Mathlib

/-!
Verification development for the duration parsing/formatting core of the
`chronotope/humantime` repository (files `src/new.rs`, `src/units.rs`,
`src/format.rs`).

All numeric work in the source is IEEE-754 binary64 (`f64`).  We model a
finite `f64` by its exact value, written as a dyadic number `m * 2^e`
(structure `Dy`), and implement every floating-point operation of the source
as the exact rational result followed by correct rounding to 53 significant
bits (round to nearest, ties to even), which is exactly the IEEE-754
behaviour for normal values.  The exponent range is unbounded in the model;
every value reached by this code lies far inside the normal binary64 range
(magnitudes between roughly 2^-120 and 2^90), where the model agrees with
binary64 bit for bit.  Rust operations that can panic (`Duration::new`,
`Duration` addition) are modelled in the `Option` monad, `none` standing for
a panic.

The `nom` parser combinators and the decimal-literal-to-`f64` conversion are
external library code (the spec explicitly treats the number-parsing
primitive as an opaque "parse a non-negative floating-point literal"
capability); they are modelled here from their documented behaviour:
`tag` is literal case-sensitive matching, `alt` tries alternatives in order
keeping the last error, `space0`/`space1` match runs of ASCII space and tab,
`many1` collects a maximal nonempty run, and `double` recognizes an optional
sign, a decimal literal with optional fraction and exponent (or `nan`/`inf`
forms), converting it to the correctly rounded binary64 value.
-/

set_option maxRecDepth 1000000

namespace Humantime

/-- Exact value of a finite binary64 number: `m * 2^e`. -/
structure Dy where
  m : Int
  e : Int
deriving DecidableEq, Repr

/-- The zero value. -/
def dyZero : Dy := ⟨0, 0⟩

/-- Iteration budget for the exponent searches below.  Every value reached in
this development needs well under 2000 iterations; the budget only makes the
recursions structural. -/
def dyFuel : Nat := 100000

/-- Least `k` with `a < d * 2^k` (given enough fuel). -/
def expUp (fuel a d : Nat) : Nat :=
  match fuel with
  | 0 => 0
  | f + 1 => if a < d then 0 else expUp f a (2 * d) + 1

/-- Least `j ≥ 1` with `a * 2^j ≥ d` (given enough fuel); used when the
quotient is below the normalization window. -/
def expDown (fuel a d : Nat) : Nat :=
  match fuel with
  | 0 => 1
  | f + 1 => if d ≤ 2 * a then 1 else expDown f (2 * a) d + 1

/-- Round the positive rational `a / d` (both nonzero) to 53 significant bits,
round to nearest, ties to even.  Returns the mantissa (in `[2^52, 2^53]`,
renormalized below) and the binary exponent. -/
def rnd53pos (a d : Nat) : Nat × Int :=
  let E : Int :=
    if d * 2 ^ 52 ≤ a then (expUp dyFuel a (d * 2 ^ 53) : Int)
    else -(expDown dyFuel a (d * 2 ^ 52) : Int)
  let num : Nat := if 0 ≤ E then a else a * 2 ^ E.natAbs
  let den : Nat := if 0 ≤ E then d * 2 ^ E.toNat else d
  let q : Nat := num / den
  let r : Nat := num % den
  let m : Nat :=
    if den < 2 * r then q + 1
    else if 2 * r < den then q
    else q + q % 2
  if m = 2 ^ 53 then (2 ^ 52, E + 1) else (m, E)

/-- Round the rational `n / d` to binary64 (value model; unbounded exponent). -/
def rndQ (n : Int) (d : Nat) : Dy :=
  if n = 0 ∨ d = 0 then dyZero
  else
    let p := rnd53pos n.natAbs d
    if n < 0 then ⟨-(p.1 : Int), p.2⟩ else ⟨(p.1 : Int), p.2⟩

/-- Round a dyadic `m * 2^e` to binary64. -/
def rndDy (m : Int) (e : Int) : Dy :=
  let v := rndQ m 1
  if v.m = 0 then dyZero else ⟨v.m, v.e + e⟩

/-- Align two dyadics to a common exponent, returning the two integer
mantissas and the shared exponent. -/
def dyAlign (x y : Dy) : Int × Int × Int :=
  let e := min x.e y.e
  (x.m * 2 ^ (x.e - e).toNat, y.m * 2 ^ (y.e - e).toNat, e)

/-- Binary64 comparison `x <= y` (value order). -/
def dyLe (x y : Dy) : Bool :=
  let a := dyAlign x y
  a.1 ≤ a.2.1

/-- Binary64 comparison `x < y` (value order). -/
def dyLt (x y : Dy) : Bool :=
  let a := dyAlign x y
  a.1 < a.2.1

/-- Binary64 addition: exact sum, then rounding. -/
def dyAdd (x y : Dy) : Dy :=
  let a := dyAlign x y
  rndDy (a.1 + a.2.1) a.2.2

/-- Binary64 subtraction: exact difference, then rounding. -/
def dySub (x y : Dy) : Dy :=
  let a := dyAlign x y
  rndDy (a.1 - a.2.1) a.2.2

/-- Binary64 multiplication: exact product, then rounding. -/
def dyMul (x y : Dy) : Dy :=
  rndDy (x.m * y.m) (x.e + y.e)

/-- Binary64 division: the correctly rounded quotient. -/
def dyDiv (x y : Dy) : Dy :=
  if x.m = 0 ∨ y.m = 0 then dyZero
  else
    let p := rnd53pos x.m.natAbs y.m.natAbs
    let s : Int := if (x.m < 0) = (y.m < 0) then (p.1 : Int) else -(p.1 : Int)
    ⟨s, p.2 + x.e - y.e⟩

/-- Truncated integer division on `Int` (rounds toward zero), as Rust does. -/
def intTdiv (a b : Int) : Int :=
  if (0 ≤ a) = (0 ≤ b) then (a.natAbs / b.natAbs : Nat)
  else -((a.natAbs / b.natAbs : Nat) : Int)

/-- Mathematical floor of a dyadic value, as an integer. -/
def dyFloorI (x : Dy) : Int :=
  if 0 ≤ x.e then x.m * 2 ^ x.e.toNat else x.m.fdiv (2 ^ (-x.e).toNat)

/-- Mathematical truncation (toward zero) of a dyadic value, as an integer. -/
def dyTruncI (x : Dy) : Int :=
  if 0 ≤ x.e then x.m * 2 ^ x.e.toNat else intTdiv x.m (2 ^ (-x.e).toNat)

/-- Binary64 `floor`: exact (the floor of a binary64 value is representable). -/
def dyFloorF (x : Dy) : Dy := ⟨dyFloorI x, 0⟩

/-- Rust `f64::round` (round half away from zero), exact on binary64 values. -/
def dyRoundI (x : Dy) : Int :=
  if 0 ≤ x.e then x.m * 2 ^ x.e.toNat
  else
    let d : Nat := 2 ^ (-x.e).toNat
    let q := x.m.natAbs / d
    let r := x.m.natAbs % d
    let mag : Int := if d ≤ 2 * r then (q : Int) + 1 else (q : Int)
    if x.m < 0 then -mag else mag

/-- Rust `f64::round` as a binary64 value. -/
def dyRoundF (x : Dy) : Dy := ⟨dyRoundI x, 0⟩

/-- Rust `%` on `f64` (`fmod`): `x - trunc(x/y)*y`, computed exactly (the
exact result of `fmod` is always representable). -/
def dyFmod (x y : Dy) : Dy :=
  let a := dyAlign x y
  if a.2.1 = 0 then dyZero else ⟨a.1 - intTdiv a.1 a.2.1 * a.2.1, a.2.2⟩

/-- Rust `as u64` cast from `f64`: truncate toward zero, saturate to
`[0, u64::MAX]` (NaN, which never reaches a cast in this code, would give 0). -/
def castU64 (x : Dy) : Nat :=
  let t := dyTruncI x
  if t ≤ 0 then 0 else min t.toNat (2 ^ 64 - 1)

/-- Rust `as u32` cast from `f64`: truncate toward zero, saturate to
`[0, u32::MAX]`. -/
def castU32 (x : Dy) : Nat :=
  let t := dyTruncI x
  if t ≤ 0 then 0 else min t.toNat (2 ^ 32 - 1)

/-- Rust `u64 as f64` / `u32 as f64`: round the integer to binary64. -/
def natToF64 (n : Nat) : Dy := rndQ n 1

/-- Value of the `f64` literal `1e9`. -/
def lit1e9 : Dy := rndQ (10 ^ 9) 1

/-- Value of the `f64` literal `1e-9`. -/
def lit1em9 : Dy := rndQ 1 (10 ^ 9)

/-- Value of the `f64` literal `1e-6`. -/
def lit1em6 : Dy := rndQ 1 (10 ^ 6)

/-- Value of the `f64` literal `1e-3`. -/
def lit1em3 : Dy := rndQ 1 (10 ^ 3)

/-- Value of the `f64` literal `60.`. -/
def lit60 : Dy := rndQ 60 1

/-- Value of the `f64` literal `3600.`. -/
def lit3600 : Dy := rndQ 3600 1

/-- Value of the `f64` literal `86400.`. -/
def lit86400 : Dy := rndQ 86400 1

/-- Value of the `f64` literal `604800.`. -/
def lit604800 : Dy := rndQ 604800 1

/-- Value of the `f64` literal `30.44`. -/
def lit30_44 : Dy := rndQ 3044 100

/-- Value of the `f64` literal `365.25`. -/
def lit365_25 : Dy := rndQ 36525 100

/-- Value of `u64::MAX as f64` (rounds up to `2^64`). -/
def u64MaxF64 : Dy := rndQ (2 ^ 64 - 1) 1

-- model sanity checks against independently computed binary64 bit patterns
theorem sanity_lit1em9 : lit1em9 = ⟨4835703278458517, -82⟩ := by decide
theorem sanity_lit1em6 : lit1em6 = ⟨4722366482869645, -72⟩ := by decide
theorem sanity_lit1em3 : lit1em3 = ⟨4611686018427388, -62⟩ := by decide
theorem sanity_lit30_44 : lit30_44 = ⟨8568098291072369, -48⟩ := by decide
theorem sanity_u64max : u64MaxF64 = ⟨4503599627370496, 12⟩ := by decide
theorem sanity_div7 :
    dyDiv (dyDiv (rndQ 7 1) lit1e9) lit1em9 = ⟨7881299347898367, -50⟩ := by decide
theorem sanity_month : dyMul lit30_44 lit86400 = ⟨5647916353978368, -31⟩ := by decide

/-- Model of `std::time::Duration`: whole seconds (`u64`) plus a sub-second
nanosecond remainder (`u32`, kept below `10^9` by construction). -/
structure Duration where
  secs : Nat
  nanos : Nat
deriving DecidableEq, Repr

/-- Largest value of a `u64`. -/
def u64Max : Nat := 2 ^ 64 - 1

/-- Model of `Duration::new(secs, nanos)`: carries whole seconds out of the
nanosecond argument; the `checked_add` panic (seconds overflow) is `none`. -/
def durationNew (secs nanos : Nat) : Option Duration :=
  if secs + nanos / 10 ^ 9 ≤ u64Max then some ⟨secs + nanos / 10 ^ 9, nanos % 10 ^ 9⟩
  else none

/-- Model of `Duration + Duration` (`checked_add` + panic on `None`):
seconds add first, then the nanosecond carry; overflow is `none`. -/
def durationAdd (a b : Duration) : Option Duration :=
  if a.secs + b.secs ≤ u64Max then
    let n := a.nanos + b.nanos
    if 10 ^ 9 ≤ n then
      if a.secs + b.secs + 1 ≤ u64Max then some ⟨a.secs + b.secs + 1, n - 10 ^ 9⟩
      else none
    else some ⟨a.secs + b.secs, n⟩
  else none

namespace New

/-- The `Unit` enum of `src/new.rs`. -/
inductive Unit where
  | nanos | micros | millis | seconds | minutes | hours | days | weeks | months | years
deriving DecidableEq, Repr

/-- Model of `parse_decimal` (`src/new.rs`): accept a finite value `v` with
`0.0 <= v && v <= u64::MAX as f64` (note `u64::MAX as f64` rounds up to
`2^64`). -/
def parse_decimal (value : Dy) : Option Dy :=
  if dyLe dyZero value ∧ dyLe value u64MaxF64 then some value else none

/-- Model of `convert_to_duration` (`src/new.rs`): unit conversion with the
literal factors of the source (`value * 30.44 * 86400.` is two successive
`f64` multiplications), floored seconds, rounded nanosecond remainder,
then `Duration::new`. -/
def convert_to_duration (value : Dy) (unit : Unit) : Option Duration :=
  let total_seconds :=
    match unit with
    | .nanos => dyMul value lit1em9
    | .micros => dyMul value lit1em6
    | .millis => dyMul value lit1em3
    | .seconds => value
    | .minutes => dyMul value lit60
    | .hours => dyMul value lit3600
    | .days => dyMul value lit86400
    | .weeks => dyMul value lit604800
    | .months => dyMul (dyMul value lit30_44) lit86400
    | .years => dyMul (dyMul value lit365_25) lit86400
  let seconds := castU64 (dyFloorF total_seconds)
  let nanos := castU32 (dyRoundF (dyMul (dySub total_seconds (dyFloorF total_seconds)) lit1e9))
  durationNew seconds nanos

/-- Error kinds of the `nom` errors this code can produce. -/
inductive ErrKind where
  | tagK | mapOptK | floatK | many1K | spaceK
deriving DecidableEq, Repr

/-- Model of `nom::error::Error<String>`: the unconsumed input at the point
of failure plus the failing rule kind. -/
structure NomErr where
  input : List Char
  code : ErrKind
deriving DecidableEq, Repr

/-- Result of a `nom` parser: either the remaining input and a value, or an
error. -/
abbrev PRes (α : Type) : Type := Except NomErr (List Char × α)

/-- Literal tag matching: if `t` is an initial segment of `i`, return the
rest of `i`. -/
def tagMatch : List Char → List Char → Option (List Char)
  | [], i => some i
  | _ :: _, [] => none
  | c :: ts, x :: xs => if c = x then tagMatch ts xs else none

/-- Model of `nom` `tag`. -/
def tagP (t : List Char) (i : List Char) : PRes PUnit :=
  match tagMatch t i with
  | some r => .ok (r, ())
  | none => .error ⟨i, .tagK⟩

/-- Model of `nom` `alt` over tags mapped to a fixed unit: try each tag in
order; all failing, keep the last error (`nom`'s `or` keeps the newer error). -/
def tagsAlt (tags : List (List Char)) (u : Unit) (i : List Char) : PRes Unit :=
  match tags with
  | [] => .error ⟨i, .tagK⟩
  | t :: ts =>
    match tagMatch t i with
    | some r => .ok (r, u)
    | none => tagsAlt ts u i

/-- Alternative with `nom`'s error combination (later error wins). -/
def orP {α : Type} (a b : PRes α) : PRes α :=
  match a with
  | .ok r => .ok r
  | .error _ => b

/-- Model of the `unit` parser of `src/new.rs`: the alias alternatives in the
exact group order and tag order of the source. -/
def unitP (i : List Char) : PRes Unit :=
  let months := tagsAlt ["months".data, "month".data, "mths".data, "mth".data, "M".data] .months i
  let days := tagsAlt ["days".data, "day".data, "dys".data, "dy".data, "d".data, "D".data] .days i
  let weeks := tagsAlt ["weeks".data, "week".data, "wks".data, "wk".data, "w".data, "W".data] .weeks i
  let years := tagsAlt ["years".data, "year".data, "yrs".data, "yr".data, "y".data, "Y".data] .years i
  let nanosecond := tagsAlt ["nanos".data, "nsec".data, "ns".data] .nanos i
  let microsecond := tagsAlt ["micros".data, "usec".data, "us".data] .micros i
  let millisecond := tagsAlt ["millis".data, "msec".data, "ms".data] .millis i
  let seconds := tagsAlt ["seconds".data, "second".data, "secs".data, "sec".data, "s".data] .seconds i
  let minutes := tagsAlt ["minutes".data, "minute".data, "mins".data, "min".data, "m".data] .minutes i
  let hours := tagsAlt ["hours".data, "hour".data, "hrs".data, "hr".data, "h".data, "H".data] .hours i
  orP months (orP days (orP weeks (orP years (orP nanosecond (orP microsecond
    (orP millisecond (orP seconds (orP minutes hours))))))))

/-- ASCII space or tab — the character class of `nom`'s `space0`/`space1`. -/
def isST (c : Char) : Bool := c = ' ' ∨ c = '\t'

/-- Model of `nom` `space0`: consume a possibly empty run of spaces/tabs. -/
def space0P (i : List Char) : PRes PUnit := .ok (i.dropWhile isST, ())

/-- Model of `nom` `space1`: consume a nonempty run of spaces/tabs. -/
def space1P (i : List Char) : PRes PUnit :=
  match i with
  | c :: _ => if isST c then .ok (i.dropWhile isST, ()) else .error ⟨i, .spaceK⟩
  | [] => .error ⟨i, .spaceK⟩

/-- Exceptional-aware `f64` result of the number literal parser: a finite
value, or the `nan` / `inf` forms that `nom`'s `double` also recognizes. -/
inductive F64x where
  | finite (v : Dy)
  | nan
  | inf
deriving DecidableEq, Repr

/-- Numeric value of a recognized decimal literal: sign, decimal mantissa and
decimal exponent, correctly rounded to binary64. -/
def decimalToF64 (neg : Bool) (mant : Nat) (e10 : Int) : Dy :=
  let v := if 0 ≤ e10 then rndQ (mant * 10 ^ e10.toNat) 1 else rndQ mant (10 ^ (-e10).toNat)
  if neg then ⟨-v.m, v.e⟩ else v

/-- Decimal digits as a natural number. -/
def digitsVal (l : List Char) : Nat :=
  l.foldl (fun a c => 10 * a + (c.toNat - 48)) 0

/-- Modelled from the spec: the external number-literal recognizer behind
`nom::number::complete::double` (`number := non-negative decimal float
literal`, §6; the spec treats this primitive as an opaque external
capability).  Grammar: optional sign, then either `digits [. digits]` or
`. digits`, then an optional exponent `e|E [sign] digits` (an exponent
marker without digits is not consumed).  Returns the remaining input,
the sign, and the literal's decimal mantissa and exponent. -/
def recognizeFloat (i : List Char) : Option (List Char × (Bool × Nat × Int)) :=
  let (neg, i1) :=
    match i with
    | '+' :: r => (false, r)
    | '-' :: r => (true, r)
    | _ => (false, i)
  let ds := i1.takeWhile Char.isDigit
  let i2 := i1.dropWhile Char.isDigit
  let core : Option (List Char × (Nat × Nat)) :=
    if ds.isEmpty then
      match i2 with
      | '.' :: r =>
        let fs := r.takeWhile Char.isDigit
        if fs.isEmpty then none
        else some (r.dropWhile Char.isDigit, (digitsVal fs, fs.length))
      | _ => none
    else
      match i2 with
      | '.' :: r =>
        let fs := r.takeWhile Char.isDigit
        some (r.dropWhile Char.isDigit, (digitsVal (ds ++ fs), fs.length))
      | _ => some (i2, (digitsVal ds, 0))
  match core with
  | none => none
  | some (i3, (mant, fracLen)) =>
    let withExp : List Char × Int :=
      match i3 with
      | c :: r =>
        if c = 'e' ∨ c = 'E' then
          let (eneg, r1) :=
            match r with
            | '+' :: r' => (false, r')
            | '-' :: r' => (true, r')
            | _ => (false, r)
          let es := r1.takeWhile Char.isDigit
          if es.isEmpty then (i3, 0)
          else (r1.dropWhile Char.isDigit,
            if eneg then -(digitsVal es : Int) else (digitsVal es : Int))
        else (i3, 0)
      | [] => (i3, 0)
    some (withExp.1, (neg, mant, withExp.2 - fracLen))

/-- Case-insensitive tag matching (for the `nan`/`inf` exceptional forms). -/
def tagMatchCI : List Char → List Char → Option (List Char)
  | [], i => some i
  | _ :: _, [] => none
  | c :: ts, x :: xs => if c.toLower = x.toLower then tagMatchCI ts xs else none

/-- Modelled from the spec: `nom::number::complete::double` — recognize a
float literal (or the `nan`/`inf`/`infinity` exceptional forms) and convert
it to the correctly rounded binary64 value; on failure, a `Float`-kind error
at the untouched input. -/
def doubleP (i : List Char) : PRes F64x :=
  match recognizeFloat i with
  | some (rest, (neg, mant, e10)) => .ok (rest, .finite (decimalToF64 neg mant e10))
  | none =>
    match tagMatchCI "nan".data i with
    | some r => .ok (r, .nan)
    | none =>
      match tagMatchCI "inf".data i with
      | some r => .ok (r, .inf)
      | none =>
        match tagMatchCI "infinity".data i with
        | some r => .ok (r, .inf)
        | none => .error ⟨i, .floatK⟩

/-- Range check on the exceptional-aware value, as `parse_decimal` sees it:
`nan` and the infinities fail the comparisons. -/
def parse_decimal_x (x : F64x) : Option Dy :=
  match x with
  | .finite v => parse_decimal v
  | _ => none

/-- Model of the `number` parser (`src/new.rs`): `double.map_opt(parse_decimal)`;
a `None` from the check becomes a `MapOpt`-kind error at the position where
`number` started. -/
def number (i : List Char) : PRes Dy :=
  match doubleP i with
  | .error e => .error e
  | .ok (rest, x) =>
    match parse_decimal_x x with
    | some v => .ok (rest, v)
    | none => .error ⟨i, .mapOptK⟩

/-- Model of `time_span` (`src/new.rs`):
`terminated(separated_pair(number, opt(space0), unit), opt(space1))`, then
`convert_to_duration` (whose `Duration::new` panic is the `none` payload). -/
def time_span (i : List Char) : PRes (Option Duration) :=
  match number i with
  | .error e => .error e
  | .ok (i1, value) =>
    match space0P i1 with
    | .error e => .error e
    | .ok (i2, _) =>
      match unitP i2 with
      | .error e => .error e
      | .ok (i3, unit) =>
        let i4 := match space1P i3 with
          | .ok (r, _) => r
          | .error _ => i3
        .ok (i4, convert_to_duration value unit)

/-- Continuation loop of `many1(time_span)`: keep parsing spans while the
inner parser succeeds and consumes input; a panic inside a span aborts the
whole computation (`none`). -/
def many1Loop : Nat → List Char → List Duration →
    Option (Except NomErr (List Char × List Duration))
  | 0, i, acc => some (.ok (i, acc))
  | fuel + 1, i, acc =>
    match time_span i with
    | .error _ => some (.ok (i, acc))
    | .ok (i1, od) =>
      match od with
      | none => none
      | some d =>
        if i1 = i then some (.error ⟨i, .many1K⟩)
        else many1Loop fuel i1 (acc ++ [d])

/-- Model of `many1(time_span)`: the first span must parse (otherwise the
inner error is returned — `nom`'s default error type discards the `Many1`
context), then the loop above. -/
def many1TS (fuel : Nat) (i : List Char) :
    Option (Except NomErr (List Char × List Duration)) :=
  match time_span i with
  | .error e => some (.error e)
  | .ok (i1, od) =>
    match od with
    | none => none
    | some d => many1Loop fuel i1 [d]

/-- The `ParseError` enum of `src/new.rs`. -/
inductive ParseError where
  | emptyInput
  | inputLeftOver
  | nom (e : NomErr)
deriving DecidableEq, Repr

end New

/-- Unicode `White_Space` code points — the class used by Rust's `str::trim`. -/
def rustWs (c : Char) : Bool :=
  [0x09, 0x0A, 0x0B, 0x0C, 0x0D, 0x20, 0x85, 0xA0, 0x1680,
   0x2000, 0x2001, 0x2002, 0x2003, 0x2004, 0x2005, 0x2006, 0x2007,
   0x2008, 0x2009, 0x200A, 0x2028, 0x2029, 0x202F, 0x205F, 0x3000].contains c.toNat

/-- Model of `str::trim`: strip leading and trailing Unicode whitespace. -/
def rustTrim (l : List Char) : List Char :=
  ((l.dropWhile rustWs).reverse.dropWhile rustWs).reverse

namespace New

/-- Model of `parse_duration_new` (`src/new.rs`): trim, empty check,
`many1(time_span)`, leftover check, then the panicking fold of the spans'
durations (`none` = a Rust panic somewhere in the call). -/
def parse_duration_new (s : String) : Option (Except ParseError Duration) :=
  let input := rustTrim s.data
  if input.isEmpty then some (.error .emptyInput)
  else
    match many1TS (input.length + 1) input with
    | none => none
    | some (.error e) => some (.error (.nom e))
    | some (.ok (rest, durations)) =>
      if (rustTrim rest).isEmpty = false then some (.error .inputLeftOver)
      else
        (durations.foldl (fun acc d => acc.bind (fun a => durationAdd a d))
          (some ⟨0, 0⟩)).map .ok

end New

/-- Decidable equality for `Except`, so that concrete parser results can be
settled by `decide`. -/
instance {ε α : Type} [DecidableEq ε] [DecidableEq α] : DecidableEq (Except ε α) :=
  fun x y =>
    match x, y with
    | .ok a, .ok b =>
      if h : a = b then .isTrue (by rw [h]) else .isFalse (by simp [h])
    | .error a, .error b =>
      if h : a = b then .isTrue (by rw [h]) else .isFalse (by simp [h])
    | .ok _, .error _ => .isFalse (by simp)
    | .error _, .ok _ => .isFalse (by simp)

-- sanity checks against the repository's own test suite (src/new.rs tests)
theorem sanity_parse_1nanos :
    New.parse_duration_new "1nanos" = some (.ok ⟨0, 1⟩) := by decide
theorem sanity_parse_combo1 :
    New.parse_duration_new "20 min 17 nsec" = some (.ok ⟨1200, 17⟩) := by decide
theorem sanity_parse_combo2 :
    New.parse_duration_new "2h 15m" = some (.ok ⟨8100, 0⟩) := by decide
theorem sanity_parse_overflow_ns :
    New.parse_duration_new "100000000000000000000ns" =
      some (.error (.nom ⟨"100000000000000000000ns".data, .mapOptK⟩)) := by decide
theorem sanity_parse_5D :
    New.parse_duration_new "5 D" = some (.ok ⟨432000, 0⟩) := by decide

namespace Units

/-- The `Unit` enum of `src/units.rs`. -/
inductive Unit where
  | nanos | micros | millis | seconds | minutes | hours | days | weeks | months | years
deriving DecidableEq, Repr

/-- Modelled from the spec: `NANO_TO_SECOND` of `crate::constants` (the
`constants.rs` file is not under `src/`); §3 fixes each unit's factor in
seconds, nanoseconds being `1e-9` seconds. -/
def NANO_TO_SECOND : Dy := lit1em9

/-- Modelled from the spec: `MICRO_TO_SECOND` (`1e-6` seconds). -/
def MICRO_TO_SECOND : Dy := lit1em6

/-- Modelled from the spec: `MILLIS_TO_SECOND` (`1e-3` seconds). -/
def MILLIS_TO_SECOND : Dy := lit1em3

/-- Modelled from the spec: `SECOND_TO_SECOND` (`1` second). -/
def SECOND_TO_SECOND : Dy := rndQ 1 1

/-- Modelled from the spec: `MINUTE_TO_SECOND` (`60` seconds). -/
def MINUTE_TO_SECOND : Dy := lit60

/-- Modelled from the spec: `HOUR_TO_SECOND` (`3600` seconds). -/
def HOUR_TO_SECOND : Dy := lit3600

/-- Modelled from the spec: `DAY_TO_SECOND` (`86400` seconds). -/
def DAY_TO_SECOND : Dy := lit86400

/-- Modelled from the spec: `WEEK_TO_SECOND` (`604800` seconds). -/
def WEEK_TO_SECOND : Dy := lit604800

/-- Modelled from the spec: `MONTH_TO_SECOND` (30.44 days, §3/§4.1; the
binary64 product `30.44 * 86400.` is exactly `2630016`). -/
def MONTH_TO_SECOND : Dy := dyMul lit30_44 lit86400

/-- Modelled from the spec: `YEAR_TO_SECOND` (365.25 days; the binary64
product `365.25 * 86400.` is exactly `31557600`). -/
def YEAR_TO_SECOND : Dy := dyMul lit365_25 lit86400

/-- Conversion factor of a unit, as used by `from_second`. -/
def factor : Unit → Dy
  | .nanos => NANO_TO_SECOND
  | .micros => MICRO_TO_SECOND
  | .millis => MILLIS_TO_SECOND
  | .seconds => SECOND_TO_SECOND
  | .minutes => MINUTE_TO_SECOND
  | .hours => HOUR_TO_SECOND
  | .days => DAY_TO_SECOND
  | .weeks => WEEK_TO_SECOND
  | .months => MONTH_TO_SECOND
  | .years => YEAR_TO_SECOND

/-- Model of `Unit::from_second` (`src/units.rs`): whole-unit count
`(value / factor).trunc() as u64` and remainder `value % factor`. -/
def from_second (u : Unit) (value : Dy) : Nat × Dy :=
  (castU64 (⟨dyTruncI (dyDiv value (factor u)), 0⟩ : Dy), dyFmod value (factor u))

end Units

namespace Fmt

/-- Model of `item_plural` (`src/format.rs`): emit `<count><name>` plus an
`"s"` when the count exceeds 1; a leading space once something was emitted;
nothing at count zero.  State is the output accumulated so far and the
`started` flag. -/
def item_plural (st : String × Bool) (name : String) (value : Nat) : String × Bool :=
  if 0 < value then
    (st.1 ++ (if st.2 then " " else "") ++ Nat.repr value ++ name ++
      (if 1 < value then "s" else ""), true)
  else st

/-- Model of `item` (`src/format.rs`): like `item_plural` but never
pluralized. -/
def item (st : String × Bool) (name : String) (value : Nat) : String × Bool :=
  if 0 < value then
    (st.1 ++ (if st.2 then " " else "") ++ Nat.repr value ++ name, true)
  else st

/-- Model of `Duration::as_secs_f64`: `secs as f64 + nanos as f64 / 1e9`. -/
def as_secs_f64 (d : Duration) : Dy :=
  dyAdd (natToF64 d.secs) (dyDiv (natToF64 d.nanos) lit1e9)

/-- The ten whole-unit counts the formatter extracts, in emission order
(years, months, weeks, days, hours, minutes, seconds, millis, micros,
nanos), obtained by chaining `from_second` over the decomposition order. -/
def counts (d : Duration) : List Nat :=
  let secs := as_secs_f64 d
  let py := Units.from_second .years secs
  let pmo := Units.from_second .months py.2
  let pw := Units.from_second .weeks pmo.2
  let pd := Units.from_second .days pw.2
  let ph := Units.from_second .hours pd.2
  let pmi := Units.from_second .minutes ph.2
  let ps := Units.from_second .seconds pmi.2
  let pms := Units.from_second .millis ps.2
  let pus := Units.from_second .micros pms.2
  let pns := Units.from_second .nanos pus.2
  [py.1, pmo.1, pw.1, pd.1, ph.1, pmi.1, ps.1, pms.1, pus.1, pns.1]

/-- Model of `fmt::Display for FormattedDuration` (`src/format.rs`), i.e. of
`format_duration(d).to_string()`: the zero case, then the ten
`item_plural`/`item` calls threading the `started` flag. -/
def format_duration (d : Duration) : String :=
  let secs := as_secs_f64 d
  if secs.m = 0 then "0s"
  else
    match counts d with
    | [years, months, weeks, days, hours, minutes, seconds, millis, micros, nanos] =>
      let st0 : String × Bool := ("", false)
      let st1 := item_plural st0 "year" years
      let st2 := item_plural st1 "month" months
      let st3 := item_plural st2 "week" weeks
      let st4 := item_plural st3 "day" days
      let st5 := item st4 "h" hours
      let st6 := item st5 "m" minutes
      let st7 := item st6 "s" seconds
      let st8 := item st7 "ms" millis
      let st9 := item st8 "us" micros
      let st10 := item st9 "ns" nanos
      st10.1
    | _ => ""

end Fmt

-- sanity checks against the repository's own doc examples and tests
-- (src/format.rs)
theorem sanity_fmt_9420 : Fmt.format_duration ⟨9420, 0⟩ = "2h 37m" := by decide
theorem sanity_fmt_32ms : Fmt.format_duration ⟨0, 32000000⟩ = "32ms" := by decide
theorem sanity_fmt_1ns : Fmt.format_duration ⟨0, 1⟩ = "1ns" := by decide
theorem sanity_fmt_month : Fmt.format_duration ⟨2630016, 0⟩ = "1month" := by decide
theorem sanity_fmt_2months : Fmt.format_duration ⟨5260032, 0⟩ = "2months" := by decide
theorem sanity_fmt_combo :
    Fmt.format_duration ⟨69764954, 200000000⟩ =
      "2years 2months 2weeks 2days 2h 2m 2s 200ms 2ns" := by decide

namespace Fmt

/-- One step of the formatter's item chain: calendar-scale triples go through
`item_plural`, sub-day triples through `item`. -/
def chainStep (st : String × Bool) (t : String × Bool × Nat) : String × Bool :=
  if t.2.1 then item_plural st t.1 t.2.2 else item st t.1 t.2.2

/-- The formatter's item chain over (suffix, calendar?, count) triples. -/
def chainRender (L : List (String × Bool × Nat)) (st : String × Bool) : String × Bool :=
  L.foldl chainStep st

/-- The ten (suffix, calendar?, count) triples of the formatter, in emission
order. -/
def triples (d : Duration) : List (String × Bool × Nat) :=
  match counts d with
  | [y, mo, w, dy, h, mi, s, ms, us, ns] =>
    [("year", true, y), ("month", true, mo), ("week", true, w), ("day", true, dy),
     ("h", false, h), ("m", false, mi), ("s", false, s), ("ms", false, ms),
     ("us", false, us), ("ns", false, ns)]
  | _ => []

/-- Rendering of a single unit triple as the spec words it (§4.3 step 4):
zero counts are omitted; a nonzero count renders as `<count><suffix>`, and
calendar-scale suffixes append `"s"` exactly when the count exceeds 1 while
sub-day suffixes never take the plural `"s"`. -/
def token_spec (t : String × Bool × Nat) : Option String :=
  if t.2.2 = 0 then none
  else some (Nat.repr t.2.2 ++ t.1 ++ (if t.2.1 ∧ 1 < t.2.2 then "s" else ""))

/-- Space-joined concatenation: a single space between items, none leading or
trailing (§4.3 step 4 output shape). -/
def spaceJoin (ts : List String) : String :=
  match ts with
  | [] => ""
  | t :: r => r.foldl (fun a x => a ++ " " ++ x) t

/-- The formatter as the spec words it: `"0s"` for zero, otherwise the
space-joined nonzero unit tokens in emission order, with the pluralization
rule of `token_spec`. -/
def format_duration_spec (d : Duration) : String :=
  if (as_secs_f64 d).m = 0 then "0s"
  else spaceJoin ((triples d).filterMap token_spec)

lemma str_append_empty (s : String) : s ++ "" = s := by
  cases s with
  | mk l =>
    show String.mk (l ++ []) = String.mk l
    rw [List.append_nil]

lemma str_empty_append (s : String) : "" ++ s = s := rfl

lemma str_append_assoc (a b c : String) : a ++ b ++ c = a ++ (b ++ c) := by
  cases a with
  | mk la =>
    cases b with
    | mk lb =>
      cases c with
      | mk lc =>
        show String.mk (la ++ lb ++ lc) = String.mk (la ++ (lb ++ lc))
        rw [List.append_assoc]

lemma foldl_sp (ts : List String) (a b : String) :
    ts.foldl (fun x y => x ++ " " ++ y) (a ++ b) =
      a ++ ts.foldl (fun x y => x ++ " " ++ y) b := by
  induction ts generalizing b with
  | nil => simp [List.foldl]
  | cons t r ih =>
    simp only [List.foldl]
    rw [str_append_assoc (a ++ b) " " t, str_append_assoc a b (" " ++ t),
      ih (b ++ (" " ++ t)), str_append_assoc b " " t]

lemma chain_cons (t : String × Bool × Nat) (R : List (String × Bool × Nat))
    (st : String × Bool) :
    chainRender (t :: R) st = chainRender R (chainStep st t) := rfl

lemma counts_shape (d : Duration) :
    ∃ y mo w dy h mi s ms us ns,
      counts d = [y, mo, w, dy, h, mi, s, ms, us, ns] :=
  ⟨_, _, _, _, _, _, _, _, _, _, rfl⟩

lemma format_duration_eq_chain (d : Duration) :
    format_duration d =
      if (as_secs_f64 d).m = 0 then "0s"
      else (chainRender (triples d) ("", false)).1 := by
  obtain ⟨y, mo, w, dy, h, mi, s, ms, us, ns, hc⟩ := counts_shape d
  by_cases h0 : (as_secs_f64 d).m = 0
  · simp [format_duration, h0]
  · simp only [format_duration, triples, hc, h0, if_false]
    rfl

lemma chain_true (L : List (String × Bool × Nat)) (acc : String) :
    chainRender L (acc, true) =
      (acc ++ (L.filterMap token_spec).foldl (fun a x => a ++ " " ++ x) "", true) := by
  induction L generalizing acc with
  | nil => simp [chainRender, List.foldl, str_append_empty]
  | cons t R ih =>
    obtain ⟨name, pl, v⟩ := t
    rw [chain_cons]
    by_cases hv : v = 0
    · subst hv
      have h0 : chainStep (acc, true) (name, pl, 0) = (acc, true) := by
        cases pl <;> simp [chainStep, item, item_plural]
      rw [h0, ih]
      simp [token_spec, List.filterMap]
    · have hv0 : 0 < v := Nat.pos_of_ne_zero hv
      have htok : List.filterMap token_spec ((name, pl, v) :: R) =
          (Nat.repr v ++ name ++ (if pl ∧ 1 < v then "s" else "")) ::
            List.filterMap token_spec R := by
        simp [token_spec, List.filterMap, hv]
      have hstep : chainStep (acc, true) (name, pl, v) =
          (acc ++ " " ++ (Nat.repr v ++ name ++ (if pl ∧ 1 < v then "s" else "")), true) := by
        cases pl
        · simp [chainStep, item, hv0, str_append_assoc, str_append_empty]
        · simp [chainStep, item_plural, hv0, str_append_assoc]
      rw [hstep, ih, htok]
      simp only [List.foldl]
      rw [show ("" ++ " " ++ (Nat.repr v ++ name ++ (if pl ∧ 1 < v then "s" else ""))) =
        (" " ++ (Nat.repr v ++ name ++ (if pl ∧ 1 < v then "s" else ""))) ++ "" by
          rw [str_empty_append, str_append_empty]]
      rw [foldl_sp]
      simp [str_append_assoc]

lemma chain_false (L : List (String × Bool × Nat)) (acc : String) :
    chainRender L (acc, false) =
      (acc ++ spaceJoin (L.filterMap token_spec),
        !(L.filterMap token_spec).isEmpty) := by
  induction L generalizing acc with
  | nil => simp [chainRender, List.foldl, spaceJoin, str_append_empty]
  | cons t R ih =>
    obtain ⟨name, pl, v⟩ := t
    rw [chain_cons]
    by_cases hv : v = 0
    · subst hv
      have h0 : chainStep (acc, false) (name, pl, 0) = (acc, false) := by
        cases pl <;> simp [chainStep, item, item_plural]
      rw [h0, ih]
      simp [token_spec, List.filterMap]
    · have hv0 : 0 < v := Nat.pos_of_ne_zero hv
      have htok : List.filterMap token_spec ((name, pl, v) :: R) =
          (Nat.repr v ++ name ++ (if pl ∧ 1 < v then "s" else "")) ::
            List.filterMap token_spec R := by
        simp [token_spec, List.filterMap, hv]
      have hstep : chainStep (acc, false) (name, pl, v) =
          (acc ++ (Nat.repr v ++ name ++ (if pl ∧ 1 < v then "s" else "")), true) := by
        cases pl
        · simp [chainStep, item, hv0, str_append_assoc, str_append_empty,
            str_empty_append]
        · simp [chainStep, item_plural, hv0, str_append_assoc, str_empty_append]
      rw [hstep, chain_true, htok]
      simp only [spaceJoin, List.isEmpty]
      rw [show (Nat.repr v ++ name ++ (if pl ∧ 1 < v then "s" else "")) =
        (Nat.repr v ++ name ++ (if pl ∧ 1 < v then "s" else "")) ++ "" by
          rw [str_append_empty]]
      rw [foldl_sp]
      simp [str_append_assoc, str_append_empty]

end Fmt

lemma isEmpty_false_of_ne_nil {l : List Char} (h : l ≠ []) : l.isEmpty = false := by
  cases l with
  | nil => exact absurd rfl h
  | cons a t => rfl

lemma eq_nil_of_isEmpty {l : List Char} (h : l.isEmpty = true) : l = [] := by
  cases l with
  | nil => rfl
  | cons a t => exact absurd h (by simp [List.isEmpty])

lemma dyLe_dyLt_asymm (x y : Dy) : dyLe x y = true → dyLt y x = true → False := by
  simp only [dyLe, dyLt, dyAlign, decide_eq_true_eq]
  rw [min_comm y.e x.e]
  omega

/-- C1: the single-unit round trip `parse_duration_new(format_duration(d)) ==
Ok(d)` fails on the code for `d` formed as 7 nanoseconds: the conversion
gives `Duration(0, 7)` (so `parse_duration_new("7ns")` does too), but the
formatter's binary64 division `7e-9 / 1e-9` lands just below 7 and truncates,
rendering `"6ns"`, which re-parses to `Duration(0, 6) ≠ d`.  This contradicts
`format_duration`'s own documentation ("this format is guaranteed to have
same value when using parse_duration"), so the code, not the claim, is wrong. -/
theorem c1_round_trip_fails_at_7ns :
    New.convert_to_duration (rndQ 7 1) .nanos = some ⟨0, 7⟩ ∧
    New.parse_duration_new "7ns" = some (.ok ⟨0, 7⟩) ∧
    Fmt.format_duration ⟨0, 7⟩ = "6ns" ∧
    New.parse_duration_new "6ns" = some (.ok ⟨0, 6⟩) := by
  refine ⟨by decide, by decide, by decide, by decide⟩

/-- C2: `parse_duration_new` is not total: two spans of `10^19` seconds each
parse individually, but the fold's `Duration` addition overflows the `u64`
seconds field, which in Rust is a panic (`none` in this model), not a typed
error. -/
theorem c2_parse_panics_on_span_sum_overflow :
    New.parse_duration_new "10000000000000000000s" =
      some (.ok ⟨10000000000000000000, 0⟩) ∧
    durationAdd ⟨10000000000000000000, 0⟩ ⟨10000000000000000000, 0⟩ = none ∧
    New.parse_duration_new "10000000000000000000s 10000000000000000000s" = none := by
  refine ⟨by decide, by decide, by decide⟩

/-- C3: `parse_duration_new` returns `EmptyInput` exactly when the input
trimmed of leading and trailing whitespace is empty; in particular `""` and
`"   "` give `EmptyInput`. -/
theorem c3_empty_input_detection :
    (∀ s : String,
      New.parse_duration_new s = some (.error .emptyInput) ↔ rustTrim s.data = []) ∧
    New.parse_duration_new "" = some (.error .emptyInput) ∧
    New.parse_duration_new "   " = some (.error .emptyInput) := by
  refine ⟨fun s => ?_, by decide, by decide⟩
  simp only [New.parse_duration_new]
  by_cases h : (rustTrim s.data).isEmpty
  · rw [if_pos h]
    exact ⟨fun _ => eq_nil_of_isEmpty h, fun _ => rfl⟩
  · rw [if_neg h]
    have hne : rustTrim s.data ≠ [] := fun hh => h (by rw [hh]; rfl)
    rcases hm : New.many1TS ((rustTrim s.data).length + 1) (rustTrim s.data)
      with _ | em
    · simp [hne]
    · rcases em with e | p
      · simp [hne]
      · rcases p with ⟨rest, ds⟩
        by_cases hr : (rustTrim rest).isEmpty = false
        · simp [hr, hne]
        · rcases hf : ds.foldl (fun acc d => acc.bind fun a => durationAdd a d)
            (some ⟨0, 0⟩) with _ | dd
          · simp [hr, hf, hne]
          · simp [hr, hf, hne]

/-- C4: error-kind discrimination: `"5x"` fails with the wrapped grammar
error (a `Tag` failure at the unrecognized unit), `"5s extra"` fails with
`InputLeftOver`; in general, on a nonempty trimmed input, a failing
`many1(time_span)` surfaces its grammar error wrapped in `Nom`, while a
successful maximal run followed by leftover non-whitespace text yields
`InputLeftOver`. -/
theorem c4_error_kind_discrimination :
    New.parse_duration_new "5x" = some (.error (.nom ⟨['x'], .tagK⟩)) ∧
    New.parse_duration_new "5s extra" = some (.error .inputLeftOver) ∧
    (∀ s : String, ∀ e : New.NomErr, rustTrim s.data ≠ [] →
      New.many1TS ((rustTrim s.data).length + 1) (rustTrim s.data) =
        some (.error e) →
      New.parse_duration_new s = some (.error (.nom e))) ∧
    (∀ s : String, ∀ rest : List Char, ∀ ds : List Duration,
      rustTrim s.data ≠ [] →
      New.many1TS ((rustTrim s.data).length + 1) (rustTrim s.data) =
        some (.ok (rest, ds)) →
      rustTrim rest ≠ [] →
      New.parse_duration_new s = some (.error .inputLeftOver)) := by
  refine ⟨by decide, by decide, fun s e hne hm => ?_, fun s rest ds hne hm hrest => ?_⟩
  · simp only [New.parse_duration_new]
    rw [if_neg (by simp [isEmpty_false_of_ne_nil hne]), hm]
  · simp only [New.parse_duration_new]
    rw [if_neg (by simp [isEmpty_false_of_ne_nil hne]), hm]
    simp [isEmpty_false_of_ne_nil hrest]

/-- Witness for C4: the two general branches applied at the concrete inputs
`"5x"` (grammar failure) and `"5s extra"` (leftover input). -/
theorem c4_error_kind_discrimination_w :
    New.parse_duration_new "5x" = some (.error (.nom ⟨['x'], .tagK⟩)) ∧
    New.parse_duration_new "5s extra" = some (.error .inputLeftOver) :=
  ⟨c4_error_kind_discrimination.2.2.1 "5x" ⟨['x'], .tagK⟩ (by decide) (by decide),
   c4_error_kind_discrimination.2.2.2 "5s extra" "extra".data [⟨5, 0⟩]
     (by decide) (by decide) (by decide)⟩

/-- C5 counterexample: the claim says every magnitude outside
`[0, u64::MAX]` is rejected with the range error, but the code's check is
against `u64::MAX as f64`, which rounds up to `2^64`: the literal
`18446744073709551616` (= `2^64 > u64::MAX`) is accepted and parses to a
saturated duration instead of failing. -/
theorem c5_range_check_counterexample :
    New.doubleP "18446744073709551616s".data =
      .ok (['s'], .finite ⟨4503599627370496, 12⟩) ∧
    dyTruncI ⟨4503599627370496, 12⟩ = 18446744073709551616 ∧
    (u64Max : Nat) < 18446744073709551616 ∧
    New.parse_duration_new "18446744073709551616s" = some (.ok ⟨u64Max, 0⟩) := by
  refine ⟨by decide, by decide, by decide, by decide⟩

/-- C5 (amended): the literal `100000000000000000000` (= `10^20`) with every
single-letter alias of the claim fails with the `MapOpt` numeric-range error
at the start of the number; and in general a finite parsed magnitude that is
negative or exceeds `u64::MAX as f64` (= `2^64`) is rejected by `number`
with that error.  (The code's upper bound is `2^64`, not `u64::MAX`.) -/
theorem c5_overflow_rejection_amended :
    (New.parse_duration_new "100000000000000000000ns" =
      some (.error (.nom ⟨"100000000000000000000ns".data, .mapOptK⟩)) ∧
    New.parse_duration_new "100000000000000000000us" =
      some (.error (.nom ⟨"100000000000000000000us".data, .mapOptK⟩)) ∧
    New.parse_duration_new "100000000000000000000ms" =
      some (.error (.nom ⟨"100000000000000000000ms".data, .mapOptK⟩)) ∧
    New.parse_duration_new "100000000000000000000s" =
      some (.error (.nom ⟨"100000000000000000000s".data, .mapOptK⟩)) ∧
    New.parse_duration_new "100000000000000000000m" =
      some (.error (.nom ⟨"100000000000000000000m".data, .mapOptK⟩)) ∧
    New.parse_duration_new "100000000000000000000h" =
      some (.error (.nom ⟨"100000000000000000000h".data, .mapOptK⟩)) ∧
    New.parse_duration_new "100000000000000000000d" =
      some (.error (.nom ⟨"100000000000000000000d".data, .mapOptK⟩)) ∧
    New.parse_duration_new "100000000000000000000w" =
      some (.error (.nom ⟨"100000000000000000000w".data, .mapOptK⟩)) ∧
    New.parse_duration_new "100000000000000000000M" =
      some (.error (.nom ⟨"100000000000000000000M".data, .mapOptK⟩)) ∧
    New.parse_duration_new "100000000000000000000Y" =
      some (.error (.nom ⟨"100000000000000000000Y".data, .mapOptK⟩))) ∧
    (∀ i rest : List Char, ∀ v : Dy,
      New.doubleP i = .ok (rest, .finite v) →
      dyLt v dyZero = true ∨ dyLt u64MaxF64 v = true →
      New.number i = .error ⟨i, .mapOptK⟩) := by
  refine ⟨⟨by decide, by decide, by decide, by decide, by decide, by decide,
    by decide, by decide, by decide, by decide⟩, fun i rest v hd hout => ?_⟩
  simp only [New.number, hd, New.parse_decimal_x, New.parse_decimal]
  rw [if_neg]
  rintro ⟨h1, h2⟩
  rcases hout with h | h
  · exact dyLe_dyLt_asymm dyZero v h1 h
  · exact dyLe_dyLt_asymm v u64MaxF64 h2 h

/-- Witness for C5 (amended): the general rejection applied at the concrete
negative literal `"-5s"`. -/
theorem c5_overflow_rejection_amended_w :
    New.number "-5s".data = .error ⟨"-5s".data, .mapOptK⟩ :=
  c5_overflow_rejection_amended.2 "-5s".data ['s'] ⟨-5629499534213120, -50⟩
    (by decide) (.inl (by decide))

/-- C6: the single-letter month/minute aliases are case sensitive: `unit`
resolves `"M"` to months and `"m"` to minutes; `parse_duration_new("5M")`
yields the unit table's five months (floor of `5 * 30.44 * 86400.` seconds
with the binary64 fractional part rounded into nanoseconds, here 2 ns), and
`parse_duration_new("5m")` yields `Duration(300, 0)`. -/
theorem c6_case_sensitive_month_minute :
    New.unitP ['M'] = .ok ([], .months) ∧
    New.unitP ['m'] = .ok ([], .minutes) ∧
    New.convert_to_duration (rndQ 5 1) .months = some ⟨13150080, 2⟩ ∧
    New.parse_duration_new "5M" = some (.ok ⟨13150080, 2⟩) ∧
    New.parse_duration_new "5m" = some (.ok ⟨300, 0⟩) := by
  refine ⟨by decide, by decide, by decide, by decide, by decide⟩

/-- C7: formatting the exactly-zero duration returns the literal `"0s"` and
nothing else. -/
theorem c7_format_zero : Fmt.format_duration ⟨0, 0⟩ = "0s" := by decide

/-- C8: the formatter's output is exactly the spec-side rendering: `"0s"` for
zero, otherwise the space-joined nonzero unit tokens in descending order
where the calendar-scale words year/month/week/day take a plural `"s"`
exactly when their count exceeds 1 and the sub-day abbreviations
h/m/s/ms/us/ns are never pluralized. -/
theorem c8_pluralization_rule (d : Duration) :
    Fmt.format_duration d = Fmt.format_duration_spec d := by
  rw [Fmt.format_duration_eq_chain]
  simp only [Fmt.format_duration_spec]
  by_cases h0 : (Fmt.as_secs_f64 d).m = 0
  · simp [h0]
  · simp only [h0, if_false]
    rw [Fmt.chain_false]
    exact Fmt.str_empty_append _

/-- C9 counterexample: the claim takes the span-internal separator class to
be all of whitespace, but the code's `space0`/`space1` match only ASCII
space and tab: a newline (which is Unicode whitespace and accepted by the
outer trim) breaks the span grammar — `"5m\n2s"` fails with `InputLeftOver`
while `"5m 2s"` succeeds, and `"5\nm"` fails with a grammar error. -/
theorem c9_newline_not_separator :
    rustWs '\n' = true ∧
    New.parse_duration_new "5m 2s" = some (.ok ⟨302, 0⟩) ∧
    New.parse_duration_new "5m\n2s" = some (.error .inputLeftOver) ∧
    New.parse_duration_new (String.mk ['5', '\n', 'm']) =
      some (.error (.nom ⟨['\n', 'm'], .tagK⟩)) := by
  refine ⟨by decide, by decide, by decide, by decide⟩

/-- C9 (amended): the separator whitespace inside the grammar is exactly
ASCII space and tab: with any such character between the number and its unit
and between consecutive spans, parsing succeeds with the same duration as
the space-separated form (shown on the schema `5<ws>m<ws>2s`, and on a
multi-character space/tab run). -/
theorem c9_space_tab_separators :
    (∀ c1 c2 : Char, c1 = ' ' ∨ c1 = '\t' → c2 = ' ' ∨ c2 = '\t' →
      New.parse_duration_new (String.mk ['5', c1, 'm', c2, '2', 's']) =
        some (.ok ⟨302, 0⟩)) ∧
    New.parse_duration_new "5 \t m \t \t 2s" = some (.ok ⟨302, 0⟩) := by
  refine ⟨fun c1 c2 h1 h2 => ?_, by decide⟩
  rcases h1 with h1 | h1 <;> rcases h2 with h2 | h2 <;> subst h1 <;> subst h2 <;> decide

/-- Witness for C9 (amended): the schema applied at `c1 = ' '`, `c2 = '\t'`. -/
theorem c9_space_tab_separators_w :
    New.parse_duration_new (String.mk ['5', ' ', 'm', '\t', '2', 's']) =
      some (.ok ⟨302, 0⟩) :=
  c9_space_tab_separators.1 ' ' '\t' (Or.inl rfl) (Or.inr rfl)

/-- C10: a magnitude that passes the `[0, u64::MAX as f64]` range check but
whose unit conversion exceeds `u64::MAX` parses successfully with the
seconds saturated to `u64::MAX` by the `as u64` cast:
`parse_duration_new("1000000000000y")` yields
`Ok(Duration(u64::MAX, 0))` even though the converted total
(`31557600000000000000` seconds) exceeds even `u64::MAX as f64`. -/
theorem c10_saturation_past_range_check :
    New.parse_decimal (rndQ (10 ^ 12) 1) = some (rndQ (10 ^ 12) 1) ∧
    dyLt u64MaxF64 (dyMul (dyMul (rndQ (10 ^ 12) 1) lit365_25) lit86400) = true ∧
    New.parse_duration_new "1000000000000y" = some (.ok ⟨u64Max, 0⟩) := by
  refine ⟨by decide, by decide, by decide⟩

end Humantime
